import Mathlib

/-!
Verification of the Teams meeting-minutes service (`src/server.js`) against
its natural-language specification.

The embedding models, from the source:
* the metrics object and its updates inside `processMeetingJob`
  (server.js lines 92-97, 504-532);
* the generic retry wrapper `retryWithBackoff` (lines 152-190);
* the transcript availability polling loop inside `processMeetingJob`
  (lines 456-478);
* the cached token acquisition `getAccessToken` plus node-cache expiry
  semantics (lines 66-67, 100-140), and an interleaving model of two
  concurrent `getAccessToken` calls;
* the webhook ingestion endpoint `POST /webhook/meeting-ended`
  (lines 575-637) and `validateWebhookSignature` (lines 412-426).

Machine numbers that matter only as counters, identifiers or millisecond
delays are modelled as `Nat`; timestamps as `Int`; elapsed processing times
feeding the running mean as `ℚ` (JavaScript arithmetic on these values is
exact for the integer ranges involved, and the running-mean algebra is the
object of the claims, not float rounding).
-/

namespace MeetingMinutes

/-! ## Metrics aggregator

The `metrics` object (server.js lines 92-97) and the updates performed by
`processMeetingJob` on the terminal outcome of an attempt (lines 504-532). -/

structure Metrics where
  totalProcessed : Nat
  totalFailed : Nat
  totalSuccess : Nat
  averageProcessingTime : ℚ
deriving Repr, DecidableEq

/-- Initial metrics object (server.js lines 92-97): all counters and the
mean start at zero. -/
def metricsInit : Metrics :=
  { totalProcessed := 0, totalFailed := 0, totalSuccess := 0, averageProcessingTime := 0 }

/-- Success path of `processMeetingJob` (server.js lines 507-510):
`totalProcessed++`, `totalSuccess++`, then the running-mean update
`avg = (avg * (totalSuccess - 1) + processingTime) / totalSuccess`
where `totalSuccess` has already been incremented. -/
def recordSuccess (m : Metrics) (processingTime : ℚ) : Metrics :=
  { totalProcessed := m.totalProcessed + 1
    totalFailed := m.totalFailed
    totalSuccess := m.totalSuccess + 1
    averageProcessingTime :=
      (m.averageProcessingTime * (((m.totalSuccess + 1 : Nat) : ℚ) - 1) + processingTime) /
        ((m.totalSuccess + 1 : Nat) : ℚ) }

/-- Failure path of `processMeetingJob` (server.js line 520): only
`totalFailed++`; no other field of `metrics` is touched. -/
def recordFailure (m : Metrics) : Metrics :=
  { m with totalFailed := m.totalFailed + 1 }

/-- Terminal part of `processMeetingJob` (server.js lines 504-532): the
attempt body either completes with an elapsed processing time (`Except.ok t`)
or throws an error `e`; on success the metrics success path runs and
`{ success: true, processingTime }` is returned, on failure only
`totalFailed` is incremented and the original error is rethrown. -/
def processMeetingJob (m : Metrics) (attempt : Except ε ℚ) : Metrics × Except ε ℚ :=
  match attempt with
  | Except.ok t => (recordSuccess m t, Except.ok t)
  | Except.error e => (recordFailure m, Except.error e)

/-- One terminal job outcome: `some t` is a success with elapsed time `t`,
`none` a failed attempt. -/
def applyOutcome (m : Metrics) (o : Option ℚ) : Metrics :=
  match o with
  | some t => recordSuccess m t
  | none => recordFailure m

/-- Metrics state after a sequence of terminal job outcomes, starting from
the process-start state. -/
def runOutcomes (l : List (Option ℚ)) : Metrics :=
  l.foldl applyOutcome metricsInit

/-- The elapsed times of the successful outcomes of a sequence, in order. -/
def successTimes (l : List (Option ℚ)) : List ℚ :=
  l.filterMap id

/-! ## Backoff retrier

`retryWithBackoff` (server.js lines 152-190). The result of the i-th
invocation of the wrapped operation is `fn i`; a JavaScript error's optional
`error.response?.status` field is `JsError.status` (absent when the failure
carried no HTTP response, e.g. a network error or timeout). -/

structure JsError where
  status : Option Nat
deriving Repr, DecidableEq

/-- The non-retryable test of server.js line 169:
`error.response?.status >= 400 && error.response?.status < 500 &&
error.response?.status !== 429`; with no response status every comparison
on `undefined` is false, so the error counts as retryable. -/
def nonRetryable (e : JsError) : Bool :=
  match e.status with
  | some s => decide (400 ≤ s) && decide (s < 500) && decide (s ≠ 429)
  | none => false

/-- Observable outcome of one `retryWithBackoff` run: the returned value or
thrown error (`Except.ok none` is JavaScript's implicit `undefined` return
when the loop body never runs), the `setTimeout` waits performed in order,
and how many times the wrapped operation was invoked. -/
structure RetryResult (α : Type) where
  result : Except JsError (Option α)
  waits : List Nat
  attempts : Nat
deriving Repr

/-- The `for (let i = 0; i < retries; i++)` loop of `retryWithBackoff`
(server.js lines 153-189). `remaining` is `retries - i`, so the loop guard
`i < retries` is `remaining ≠ 0` and the last-attempt test `i === retries - 1`
is `remaining = 1`. On failure the last attempt rethrows, then a
non-retryable (4xx, not 429) failure rethrows, otherwise the loop waits
`delay * 2 ^ i` and moves to the next iteration. -/
def retryLoop (fn : Nat → Except JsError α) (delay : Nat) :
    Nat → Nat → RetryResult α
  | 0, _ => { result := Except.ok none, waits := [], attempts := 0 }
  | remaining + 1, i =>
    match fn i with
    | Except.ok v => { result := Except.ok (some v), waits := [], attempts := 1 }
    | Except.error e =>
      if remaining = 0 then
        { result := Except.error e, waits := [], attempts := 1 }
      else if nonRetryable e then
        { result := Except.error e, waits := [], attempts := 1 }
      else
        let rest := retryLoop fn delay remaining (i + 1)
        { result := rest.result, waits := delay * 2 ^ i :: rest.waits,
          attempts := rest.attempts + 1 }

/-- `retryWithBackoff(fn, retries, delay)` (server.js line 152). `retries`
is an `Int` because the source does not constrain it to be positive; the
loop runs `max retries 0` iterations at most. -/
def retryWithBackoff (fn : Nat → Except JsError α) (retries : Int) (delay : Nat) :
    RetryResult α :=
  retryLoop fn delay retries.toNat 0

theorem retryLoop_ok (fn : Nat → Except JsError α) (delay r i : Nat) (v : α)
    (hfi : fn i = Except.ok v) :
    retryLoop fn delay (r + 1) i =
      { result := Except.ok (some v), waits := [], attempts := 1 } := by
  simp [retryLoop, hfi]

theorem retryLoop_last (fn : Nat → Except JsError α) (delay i : Nat) (e : JsError)
    (hfi : fn i = Except.error e) :
    retryLoop fn delay 1 i =
      { result := Except.error e, waits := [], attempts := 1 } := by
  simp [retryLoop, hfi]

theorem retryLoop_nonret (fn : Nat → Except JsError α) (delay r i : Nat) (e : JsError)
    (hr : r ≠ 0) (hfi : fn i = Except.error e) (hnr : nonRetryable e = true) :
    retryLoop fn delay (r + 1) i =
      { result := Except.error e, waits := [], attempts := 1 } := by
  simp [retryLoop, hfi, hr, hnr]

theorem retryLoop_cont (fn : Nat → Except JsError α) (delay r i : Nat) (e : JsError)
    (hr : r ≠ 0) (hfi : fn i = Except.error e) (hnr : nonRetryable e = false) :
    retryLoop fn delay (r + 1) i =
      { result := (retryLoop fn delay r (i + 1)).result,
        waits := delay * 2 ^ i :: (retryLoop fn delay r (i + 1)).waits,
        attempts := (retryLoop fn delay r (i + 1)).attempts + 1 } := by
  simp [retryLoop, hfi, hr, hnr]

theorem retryLoop_attempts_le (fn : Nat → Except JsError α) (delay : Nat) :
    ∀ rem i, (retryLoop fn delay rem i).attempts ≤ rem := by
  intro rem
  induction rem with
  | zero => intro i; simp [retryLoop]
  | succ r ih =>
    intro i
    cases hfi : fn i with
    | ok v => rw [retryLoop_ok fn delay r i v hfi]; simp
    | error e =>
      rcases Nat.eq_zero_or_pos r with hr | hr
      · subst hr; rw [retryLoop_last fn delay i e hfi]
      · cases hnr : nonRetryable e with
        | true => rw [retryLoop_nonret fn delay r i e (by omega) hfi hnr]; simp
        | false =>
          rw [retryLoop_cont fn delay r i e (by omega) hfi hnr]
          have hle := ih (i + 1)
          simp only [RetryResult.attempts]
          omega

theorem retryLoop_attempts_pos (fn : Nat → Except JsError α) (delay : Nat)
    (rem i : Nat) (hrem : 0 < rem) : 1 ≤ (retryLoop fn delay rem i).attempts := by
  cases rem with
  | zero => omega
  | succ r =>
    cases hfi : fn i with
    | ok v => rw [retryLoop_ok fn delay r i v hfi]
    | error e =>
      rcases Nat.eq_zero_or_pos r with hr | hr
      · subst hr; rw [retryLoop_last fn delay i e hfi]
      · cases hnr : nonRetryable e with
        | true => rw [retryLoop_nonret fn delay r i e (by omega) hfi hnr]
        | false =>
          rw [retryLoop_cont fn delay r i e (by omega) hfi hnr]
          simp only [RetryResult.attempts]
          omega

theorem retryLoop_waits (fn : Nat → Except JsError α) (delay : Nat) :
    ∀ rem i, (retryLoop fn delay rem i).waits =
      (List.range' i ((retryLoop fn delay rem i).attempts - 1)).map
        (fun j => delay * 2 ^ j) := by
  intro rem
  induction rem with
  | zero => intro i; simp [retryLoop]
  | succ r ih =>
    intro i
    cases hfi : fn i with
    | ok v => rw [retryLoop_ok fn delay r i v hfi]; simp
    | error e =>
      rcases Nat.eq_zero_or_pos r with hr | hr
      · subst hr; rw [retryLoop_last fn delay i e hfi]; simp
      · cases hnr : nonRetryable e with
        | true => rw [retryLoop_nonret fn delay r i e (by omega) hfi hnr]; simp
        | false =>
          rw [retryLoop_cont fn delay r i e (by omega) hfi hnr]
          have hpos : 1 ≤ (retryLoop fn delay r (i + 1)).attempts :=
            retryLoop_attempts_pos fn delay r (i + 1) hr
          obtain ⟨b, hb⟩ : ∃ b, (retryLoop fn delay r (i + 1)).attempts = b + 1 :=
            ⟨(retryLoop fn delay r (i + 1)).attempts - 1, by omega⟩
          have hw := ih (i + 1)
          rw [hb, Nat.add_sub_cancel] at hw
          simp only [hb, Nat.add_sub_cancel]
          rw [List.range'_succ, List.map_cons, hw]

theorem retryLoop_abort (fn : Nat → Except JsError α) (delay : Nat) :
    ∀ rem i k e, i ≤ k → k + 1 < i + rem →
      fn k = Except.error e → nonRetryable e = true →
      (∀ j, i ≤ j → j < k → ∃ e2, fn j = Except.error e2 ∧ nonRetryable e2 = false) →
      (retryLoop fn delay rem i).result = Except.error e ∧
      (retryLoop fn delay rem i).attempts = k + 1 - i := by
  intro rem
  induction rem with
  | zero => intro i k e hik hlast _ _ _; omega
  | succ r ih =>
    intro i k e hik hlast hfk hnr hprev
    by_cases hi : i = k
    · subst hi
      have hr : r ≠ 0 := by omega
      rw [retryLoop_nonret fn delay r i e hr hfk hnr]
      simp
    · have hik2 : i < k := by omega
      obtain ⟨e2, hfn2, hret2⟩ := hprev i (le_refl i) hik2
      have hr : r ≠ 0 := by omega
      rw [retryLoop_cont fn delay r i e2 hr hfn2 hret2]
      have hrec := ih (i + 1) k e (by omega) (by omega) hfk hnr
        (fun j hj1 hj2 => hprev j (by omega) hj2)
      refine ⟨hrec.1, ?_⟩
      simp only [hrec.2]
      omega

theorem retryLoop_exhaust (fn : Nat → Except JsError α) (delay : Nat)
    (errs : Nat → JsError) :
    ∀ rem i, 0 < rem →
      (∀ j, i ≤ j → j < i + rem →
        fn j = Except.error (errs j) ∧ nonRetryable (errs j) = false) →
      (retryLoop fn delay rem i).result = Except.error (errs (i + rem - 1)) ∧
      (retryLoop fn delay rem i).attempts = rem := by
  intro rem
  induction rem with
  | zero => intro i h; omega
  | succ r ih =>
    intro i _ hall
    obtain ⟨hfi, hri⟩ := hall i (le_refl i) (by omega)
    rcases Nat.eq_zero_or_pos r with hr | hr
    · subst hr
      rw [retryLoop_last fn delay i (errs i) hfi]
      simp
    · rw [retryLoop_cont fn delay r i (errs i) (by omega) hfi hri]
      have hrec := ih (i + 1) (by omega)
        (fun j hj1 hj2 => hall j (by omega) (by omega))
      constructor
      · have harith : i + 1 + r - 1 = i + (r + 1) - 1 := by omega
        rw [← harith]
        exact hrec.1
      · simp [hrec.2]

/-- C3: for every operation and every policy with maxAttempts ≥ 1, the
Backoff Retrier executes the operation at most `maxAttempts` times; the
waits performed are exactly `baseDelay * 2 ^ 0, baseDelay * 2 ^ 1, ...`,
one before each attempt after the first and none after the final failed
attempt (the wait list always has one entry fewer than the attempt count);
and a failure carrying a 4xx status other than 429, reached on a non-final
attempt after only retriable failures, aborts immediately: the error is
surfaced as-is and no further attempts happen. -/
theorem retryWithBackoff_spec (fn : Nat → Except JsError α) (retries : Int)
    (delay : Nat) (_hretries : 1 ≤ retries) :
    (retryWithBackoff fn retries delay).attempts ≤ retries.toNat ∧
    (retryWithBackoff fn retries delay).waits =
      (List.range ((retryWithBackoff fn retries delay).attempts - 1)).map
        (fun i => delay * 2 ^ i) ∧
    ∀ k e, k + 1 < retries.toNat → fn k = Except.error e → nonRetryable e = true →
      (∀ j, j < k → ∃ e2, fn j = Except.error e2 ∧ nonRetryable e2 = false) →
      (retryWithBackoff fn retries delay).result = Except.error e ∧
      (retryWithBackoff fn retries delay).attempts = k + 1 := by
  refine ⟨retryLoop_attempts_le fn delay retries.toNat 0, ?_, ?_⟩
  · rw [List.range_eq_range']
    exact retryLoop_waits fn delay retries.toNat 0
  · intro k e hk hfk hnr hprev
    have h := retryLoop_abort fn delay retries.toNat 0 k e (by omega) (by omega)
      hfk hnr (fun j hj0 hjk => hprev j hjk)
    refine ⟨h.1, ?_⟩
    show (retryLoop fn delay retries.toNat 0).attempts = k + 1
    have h2 := h.2
    omega

/-- Witness for C3: operation always failing with status 404, policy
maxAttempts = 3, baseDelay = 1000: the first attempt aborts the whole run,
the 404 error is surfaced and exactly one attempt is made. -/
theorem retryWithBackoff_spec_witness :
    (retryWithBackoff (fun _ => (Except.error { status := some 404 } :
        Except JsError Nat)) 3 1000).result = Except.error { status := some 404 } ∧
    (retryWithBackoff (fun _ => (Except.error { status := some 404 } :
        Except JsError Nat)) 3 1000).attempts = 1 := by
  have h := retryWithBackoff_spec
    (fun _ => (Except.error { status := some 404 } : Except JsError Nat)) 3 1000
    (by norm_num)
  exact h.2.2 0 { status := some 404 } (by norm_num) rfl (by decide)
    (fun j hj => absurd hj (by omega))

/-- C5: when every attempt fails with a retriable error, the Backoff
Retrier consumes exactly `maxAttempts` attempts and its failure is the last
underlying error itself (the source rethrows `error` of the final attempt,
which is how the spec's RetriesExhausted(lastError) surfaces — no other
error shape is substituted). -/
theorem retryWithBackoff_exhausted (fn : Nat → Except JsError α)
    (errs : Nat → JsError) (retries : Int) (delay : Nat) (hretries : 1 ≤ retries)
    (hall : ∀ j, j < retries.toNat →
      fn j = Except.error (errs j) ∧ nonRetryable (errs j) = false) :
    (retryWithBackoff fn retries delay).result =
      Except.error (errs (retries.toNat - 1)) ∧
    (retryWithBackoff fn retries delay).attempts = retries.toNat := by
  have h := retryLoop_exhaust fn delay errs retries.toNat 0 (by omega)
    (fun j hj0 hj => hall j (by omega))
  refine ⟨?_, h.2⟩
  have harith : 0 + retries.toNat - 1 = retries.toNat - 1 := by omega
  rw [← harith]
  exact h.1

/-- Witness for C5: three attempts all failing with status 503 exhaust the
budget; the run fails with the (last) 503 error after exactly 3 attempts. -/
theorem retryWithBackoff_exhausted_witness :
    (retryWithBackoff (fun _ => (Except.error { status := some 503 } :
        Except JsError Nat)) 3 1000).result = Except.error { status := some 503 } ∧
    (retryWithBackoff (fun _ => (Except.error { status := some 503 } :
        Except JsError Nat)) 3 1000).attempts = 3 := by
  have h := retryWithBackoff_exhausted
    (fun _ => (Except.error { status := some 503 } : Except JsError Nat))
    (fun _ => { status := some 503 }) 3 1000 (by norm_num)
    (fun j _ => ⟨rfl, rfl⟩)
  exact h

/-- C10: called with `retries ≤ 0` (the source never checks this), the loop
body never runs: the operation is invoked zero times, no waits happen, and
the call returns JavaScript's implicit `undefined` as if it had succeeded. -/
theorem retryWithBackoff_nonpositive (fn : Nat → Except JsError α)
    (retries : Int) (delay : Nat) (h : retries ≤ 0) :
    retryWithBackoff fn retries delay =
      { result := Except.ok none, waits := [], attempts := 0 } := by
  have h0 : retries.toNat = 0 := by omega
  show retryLoop fn delay retries.toNat 0 = _
  rw [h0]
  simp [retryLoop]

/-- Witness for C10: `retries = -1` with an operation that would fail with
status 500 if it were ever called: zero attempts, a successful `undefined`
result. -/
theorem retryWithBackoff_nonpositive_witness :
    retryWithBackoff (fun _ => (Except.error { status := some 500 } :
        Except JsError Nat)) (-1) 1000 =
      { result := Except.ok none, waits := [], attempts := 0 } :=
  retryWithBackoff_nonpositive
    (fun _ => (Except.error { status := some 500 } : Except JsError Nat))
    (-1) 1000 (by norm_num)

/-- Running-mean bookkeeping of the metrics object over any outcome
sequence: `totalSuccess` and `totalProcessed` both count only successes,
`totalFailed` counts failures, and the running mean times the success count
equals the sum of the successful elapsed times. -/
theorem successTimes_cons_some (t : ℚ) (rest : List (Option ℚ)) :
    successTimes (some t :: rest) = t :: successTimes rest := by
  simp [successTimes]

theorem successTimes_cons_none (rest : List (Option ℚ)) :
    successTimes (none :: rest) = successTimes rest := by
  simp [successTimes]

theorem foldl_applyOutcome_inv (l : List (Option ℚ)) :
    ∀ m : Metrics,
      (l.foldl applyOutcome m).totalSuccess = m.totalSuccess + (successTimes l).length ∧
      (l.foldl applyOutcome m).totalProcessed = m.totalProcessed + (successTimes l).length ∧
      (l.foldl applyOutcome m).totalFailed =
        m.totalFailed + l.countP (fun o => o.isNone) ∧
      (l.foldl applyOutcome m).averageProcessingTime *
          (((l.foldl applyOutcome m).totalSuccess : Nat) : ℚ) =
        m.averageProcessingTime * ((m.totalSuccess : Nat) : ℚ) + (successTimes l).sum := by
  induction l with
  | nil => intro m; simp [successTimes]
  | cons o rest ih =>
    intro m
    cases o with
    | some t =>
      have step : List.foldl applyOutcome m (some t :: rest) =
          List.foldl applyOutcome (recordSuccess m t) rest := rfl
      have hcast : ((m.totalSuccess : Nat) : ℚ) + 1 ≠ 0 := by
        have : (0 : ℚ) ≤ ((m.totalSuccess : Nat) : ℚ) := by positivity
        intro hc
        nlinarith
      have hmean : (recordSuccess m t).averageProcessingTime *
          (((recordSuccess m t).totalSuccess : Nat) : ℚ) =
          m.averageProcessingTime * ((m.totalSuccess : Nat) : ℚ) + t := by
        show (m.averageProcessingTime * (((m.totalSuccess + 1 : Nat) : ℚ) - 1) + t) /
            ((m.totalSuccess + 1 : Nat) : ℚ) * ((m.totalSuccess + 1 : Nat) : ℚ) = _
        push_cast
        field_simp
      have h := ih (recordSuccess m t)
      have hsucc : (recordSuccess m t).totalSuccess = m.totalSuccess + 1 := rfl
      have hproc : (recordSuccess m t).totalProcessed = m.totalProcessed + 1 := rfl
      have hfail : (recordSuccess m t).totalFailed = m.totalFailed := rfl
      refine ⟨?_, ?_, ?_, ?_⟩
      · rw [step, h.1, hsucc, successTimes_cons_some]
        simp
        omega
      · rw [step, h.2.1, hproc, successTimes_cons_some]
        simp
        omega
      · rw [step, h.2.2.1, hfail, List.countP_cons]
        simp
      · rw [step, h.2.2.2, hmean, successTimes_cons_some, List.sum_cons]
        ring
    | none =>
      have step : List.foldl applyOutcome m (none :: rest) =
          List.foldl applyOutcome (recordFailure m) rest := rfl
      have h := ih (recordFailure m)
      have hsucc : (recordFailure m).totalSuccess = m.totalSuccess := rfl
      have hproc : (recordFailure m).totalProcessed = m.totalProcessed := rfl
      have hfail : (recordFailure m).totalFailed = m.totalFailed + 1 := rfl
      have hmean : (recordFailure m).averageProcessingTime =
          m.averageProcessingTime := rfl
      refine ⟨?_, ?_, ?_, ?_⟩
      · rw [step, h.1, hsucc, successTimes_cons_none]
      · rw [step, h.2.1, hproc, successTimes_cons_none]
      · rw [step, h.2.2.1, hfail, List.countP_cons]
        simp
        omega
      · rw [step, h.2.2.2, hmean, hsucc, successTimes_cons_none]

/-- Exact characterization of the metrics after any sequence of terminal
outcomes from process start: only successes feed `totalSuccess`,
`totalProcessed` and the running mean (`mean * successCount = sum of
success times`), and `totalFailed` counts exactly the failures. -/
theorem runOutcomes_characterization (l : List (Option ℚ)) :
    (runOutcomes l).totalSuccess = (successTimes l).length ∧
    (runOutcomes l).totalProcessed = (successTimes l).length ∧
    (runOutcomes l).totalFailed = l.countP (fun o => o.isNone) ∧
    (runOutcomes l).averageProcessingTime * (((successTimes l).length : Nat) : ℚ) =
      (successTimes l).sum := by
  have h := foldl_applyOutcome_inv l metricsInit
  simp only [metricsInit, runOutcomes] at h ⊢
  obtain ⟨h1, h2, h3, h4⟩ := h
  refine ⟨by simpa using h1, by simpa using h2, by simpa using h3, ?_⟩
  rw [h1] at h4
  simpa using h4

/-- C2 (code bug evaluation): a single failed job outcome from the initial
all-zero metrics leaves `totalProcessed` at 0 instead of incrementing it to
1 as the claim requires; only `totalFailed` moves, and the mean is
untouched. With this behavior `totalProcessed` always equals
`totalSuccess`, so the success rate reported by `/health`
(`totalSuccess / totalProcessed`) can never be anything but 100%. -/
theorem processMeetingJob_failure_metrics_eval :
    (processMeetingJob metricsInit (Except.error () : Except Unit ℚ)).1.totalProcessed = 0 ∧
    (processMeetingJob metricsInit (Except.error () : Except Unit ℚ)).1.totalFailed = 1 ∧
    (processMeetingJob metricsInit (Except.error () : Except Unit ℚ)).1.totalSuccess = 0 ∧
    (processMeetingJob metricsInit (Except.error () : Except Unit ℚ)).1.averageProcessingTime = 0 :=
  ⟨rfl, rfl, rfl, rfl⟩

/-- C9: when a job-processing attempt fails, the only metrics field that
changes is `totalFailed` (incremented by one); `totalProcessed`,
`totalSuccess` and `averageProcessingTime` are untouched, and the original
error is rethrown unchanged. -/
theorem processMeetingJob_failure_frame {ε : Type} (m : Metrics) (e : ε) :
    (processMeetingJob m (Except.error e)).1.totalFailed = m.totalFailed + 1 ∧
    (processMeetingJob m (Except.error e)).1.totalProcessed = m.totalProcessed ∧
    (processMeetingJob m (Except.error e)).1.totalSuccess = m.totalSuccess ∧
    (processMeetingJob m (Except.error e)).1.averageProcessingTime =
      m.averageProcessingTime ∧
    (processMeetingJob m (Except.error e)).2 = Except.error e :=
  ⟨rfl, rfl, rfl, rfl, rfl⟩

/-! ## Availability poller

The transcript-waiting loop inside `processMeetingJob` (server.js lines
456-478): `while (transcripts.length === 0 && retryCount < maxTranscriptRetries)`
re-lists the transcripts, and after each empty listing increments
`retryCount` and waits `min(30000 * retryCount, 300000)` milliseconds; when
the loop exits with an empty list, the job fails with
"No transcripts available after maximum retries" (the spec's
ResourceNotReady). The k-th listing call (0-indexed) returns `checkFn k`. -/

inductive PollError where
  | resourceNotReady
deriving Repr, DecidableEq

/-- Observable outcome of one polling loop run: the returned list or the
failure, the waits performed in order, and how many listing calls ran. -/
structure PollResult (α : Type) where
  result : Except PollError (List α)
  waits : List Nat
  checks : Nat
deriving Repr

/-- The polling loop body; `remaining` is `maxAttempts - retryCount` (the
loop guard `retryCount < maxAttempts` is `remaining ≠ 0`) and `k` is the
current `retryCount`. An empty listing waits
`min (unitWait * (k + 1)) maxWait` — the source's
`Math.min(30000 * retryCount, 300000)` after `retryCount++` — and
continues; exhausting the attempt budget with every listing empty throws. -/
def pollLoop (checkFn : Nat → List α) (unitWait maxWait : Nat) :
    Nat → Nat → PollResult α
  | 0, _ => { result := Except.error PollError.resourceNotReady, waits := [], checks := 0 }
  | remaining + 1, k =>
    if (checkFn k).isEmpty then
      let rest := pollLoop checkFn unitWait maxWait remaining (k + 1)
      { result := rest.result, waits := min (unitWait * (k + 1)) maxWait :: rest.waits,
        checks := rest.checks + 1 }
    else
      { result := Except.ok (checkFn k), waits := [], checks := 1 }

/-- The availability poller with explicit policy parameters, started at
`retryCount = 0`. -/
def availabilityPoller (checkFn : Nat → List α) (maxAttempts unitWait maxWait : Nat) :
    PollResult α :=
  pollLoop checkFn unitWait maxWait maxAttempts 0

/-- The transcript wait of `processMeetingJob` with the source constants:
`maxTranscriptRetries = 10`, unit wait 30000 ms, cap 300000 ms. -/
def waitForTranscripts (checkFn : Nat → List α) : PollResult α :=
  availabilityPoller checkFn 10 30000 300000

theorem pollLoop_empty_step (checkFn : Nat → List α) (unitWait maxWait r k : Nat)
    (hk : checkFn k = []) :
    pollLoop checkFn unitWait maxWait (r + 1) k =
      { result := (pollLoop checkFn unitWait maxWait r (k + 1)).result,
        waits := min (unitWait * (k + 1)) maxWait ::
          (pollLoop checkFn unitWait maxWait r (k + 1)).waits,
        checks := (pollLoop checkFn unitWait maxWait r (k + 1)).checks + 1 } := by
  simp [pollLoop, hk]

theorem pollLoop_found_step (checkFn : Nat → List α) (unitWait maxWait r k : Nat)
    (hk : checkFn k ≠ []) :
    pollLoop checkFn unitWait maxWait (r + 1) k =
      { result := Except.ok (checkFn k), waits := [], checks := 1 } := by
  have : (checkFn k).isEmpty = false := by
    simpa [List.isEmpty_iff] using hk
  simp [pollLoop, this]

theorem pollLoop_checks_le (checkFn : Nat → List α) (unitWait maxWait : Nat) :
    ∀ rem k, (pollLoop checkFn unitWait maxWait rem k).checks ≤ rem := by
  intro rem
  induction rem with
  | zero => intro k; simp [pollLoop]
  | succ r ih =>
    intro k
    by_cases hk : checkFn k = []
    · rw [pollLoop_empty_step checkFn unitWait maxWait r k hk]
      have := ih (k + 1)
      simp only [PollResult.checks]
      omega
    · rw [pollLoop_found_step checkFn unitWait maxWait r k hk]
      simp

theorem pollLoop_success (checkFn : Nat → List α) (unitWait maxWait : Nat) :
    ∀ rem k0 k, k0 ≤ k → k < k0 + rem →
      (∀ j, k0 ≤ j → j < k → checkFn j = []) → checkFn k ≠ [] →
      pollLoop checkFn unitWait maxWait rem k0 =
        { result := Except.ok (checkFn k),
          waits := (List.range' (k0 + 1) (k - k0)).map
            (fun j => min (unitWait * j) maxWait),
          checks := k + 1 - k0 } := by
  intro rem
  induction rem with
  | zero => intro k0 k h1 h2 _ _; omega
  | succ r ih =>
    intro k0 k h1 h2 hprev hk
    by_cases hk0 : k0 = k
    · subst hk0
      rw [pollLoop_found_step checkFn unitWait maxWait r k0 hk]
      simp
    · have hlt : k0 < k := by omega
      have hempty : checkFn k0 = [] := hprev k0 (le_refl k0) hlt
      rw [pollLoop_empty_step checkFn unitWait maxWait r k0 hempty]
      rw [ih (k0 + 1) k (by omega) (by omega) (fun j hj1 hj2 => hprev j (by omega) hj2) hk]
      have hrange : k - k0 = (k - (k0 + 1)) + 1 := by omega
      rw [hrange, List.range'_succ, List.map_cons]
      have hchecks : k + 1 - (k0 + 1) + 1 = k + 1 - k0 := by omega
      rw [hchecks]

theorem pollLoop_exhaust (checkFn : Nat → List α) (unitWait maxWait : Nat) :
    ∀ rem k0, (∀ j, k0 ≤ j → j < k0 + rem → checkFn j = []) →
      pollLoop checkFn unitWait maxWait rem k0 =
        { result := Except.error PollError.resourceNotReady,
          waits := (List.range' (k0 + 1) rem).map
            (fun j => min (unitWait * j) maxWait),
          checks := rem } := by
  intro rem
  induction rem with
  | zero => intro k0 _; simp [pollLoop]
  | succ r ih =>
    intro k0 hall
    have hempty : checkFn k0 = [] := hall k0 (le_refl k0) (by omega)
    rw [pollLoop_empty_step checkFn unitWait maxWait r k0 hempty]
    rw [ih (k0 + 1) (fun j hj1 hj2 => hall j (by omega) (by omega))]
    rw [List.range'_succ, List.map_cons]

/-- C4: for every run of the availability poller — if the k-th listing is
the first non-empty one (any k below the attempt cap), its list is returned
immediately after exactly k + 1 listing calls, the waits so far being
`min(unitWait * 1, maxWait), ..., min(unitWait * k, maxWait)` (linear,
capped); the number of listing calls never exceeds the attempt cap; and if
every listing within the cap is empty the run fails with ResourceNotReady
after exactly the cap's number of calls, the j-th empty listing having been
followed by a `min(unitWait * j, maxWait)` wait. The transcript loop of
`processMeetingJob` instantiates this with cap 10, unit 30000 ms, max
300000 ms. -/
theorem availabilityPoller_spec (checkFn : Nat → List α)
    (maxAttempts unitWait maxWait : Nat) :
    waitForTranscripts checkFn = availabilityPoller checkFn 10 30000 300000 ∧
    (availabilityPoller checkFn maxAttempts unitWait maxWait).checks ≤ maxAttempts ∧
    (∀ k, k < maxAttempts → (∀ j, j < k → checkFn j = []) → checkFn k ≠ [] →
      availabilityPoller checkFn maxAttempts unitWait maxWait =
        { result := Except.ok (checkFn k),
          waits := (List.range' 1 k).map (fun j => min (unitWait * j) maxWait),
          checks := k + 1 }) ∧
    ((∀ j, j < maxAttempts → checkFn j = []) →
      availabilityPoller checkFn maxAttempts unitWait maxWait =
        { result := Except.error PollError.resourceNotReady,
          waits := (List.range' 1 maxAttempts).map
            (fun j => min (unitWait * j) maxWait),
          checks := maxAttempts }) := by
  refine ⟨rfl, pollLoop_checks_le checkFn unitWait maxWait maxAttempts 0, ?_, ?_⟩
  · intro k hk hprev hfound
    have h := pollLoop_success checkFn unitWait maxWait maxAttempts 0 k
      (by omega) (by omega) (fun j hj1 hj2 => hprev j hj2) hfound
    simpa using h
  · intro hall
    have h := pollLoop_exhaust checkFn unitWait maxWait maxAttempts 0
      (fun j hj1 hj2 => hall j (by omega))
    simpa using h

/-- Witness for C4: listings are empty on calls 0 and 1 and return one item
on call 2, with the source constants (cap 10, unit 30000, max 300000): the
item list is returned after 3 calls and waits 30000 ms then 60000 ms. -/
theorem availabilityPoller_spec_witness :
    availabilityPoller (fun k => if k < 2 then ([] : List Nat) else [7]) 10 30000 300000 =
      { result := Except.ok [7], waits := [30000, 60000], checks := 3 } := by
  have h := availabilityPoller_spec (fun k => if k < 2 then ([] : List Nat) else [7])
    10 30000 300000
  have h2 := h.2.2.1 2 (by omega) (fun j hj => by
    interval_cases j <;> simp) (by simp)
  rw [h2]
  rfl

/-! ## Credential cache

`getAccessToken` (server.js lines 100-140) backed by the node-cache
instance `tokenCache` (line 67). Times are in seconds (both
`expires_in` and the node-cache TTL argument are in seconds); a stored
entry is returned by `get` while the current time is strictly before its
expiry time, matching node-cache's internal check `entry.t > Date.now()`.
The credential provider's response is `Except.ok (token, expires_in)`
where `expires_in` is the optional `response.data.expires_in` field, or
`Except.error e` when the token request fails. -/

structure TokenCache where
  entry : Option (Nat × Int)
deriving Repr, DecidableEq

def emptyTokenCache : TokenCache := { entry := none }

/-- node-cache `get`: return a stored, unexpired token. -/
def cacheLookup (c : TokenCache) (now : Int) : Option Nat :=
  match c.entry with
  | some (tok, exp) => if now < exp then some tok else none
  | none => none

/-- Defaulting of `response.data.expires_in || 3600` (server.js line 125):
an absent or zero (falsy) value becomes 3600. -/
def effectiveExpiresIn (e : Option Nat) : Nat :=
  match e with
  | some n => if n = 0 then 3600 else n
  | none => 3600

/-- One sequential `getAccessToken` call at time `now` (server.js lines
100-140): on a cache hit the cached token is returned with no provider
call; on a miss the provider is called once — on success the token is
cached with TTL `expiresIn - 300` (line 128, the 5-minute safety margin),
on failure the error surfaces with the cache unchanged and no further
provider call. Returns (call result, cache afterwards, number of provider
refresh calls made). -/
def getAccessToken (c : TokenCache) (now : Int)
    (provider : Except ε (Nat × Option Nat)) :
    Except ε Nat × TokenCache × Nat :=
  match cacheLookup c now with
  | some tok => (Except.ok tok, c, 0)
  | none =>
    match provider with
    | Except.ok (tok, e) =>
      (Except.ok tok,
        { entry := some (tok, now + ((effectiveExpiresIn e : Int) - 300)) }, 1)
    | Except.error err => (Except.error err, c, 1)

/-- C6: a refresh at time `t0` returning `expiresInSeconds = E` (with the
safety margin meaningful, `E > 300`) answers the call with one provider
refresh and caches the token with expiry `t0 + E - 300` — issued expiry
minus the 300-second margin. Every call strictly before that point is
served from the cache with zero refresh calls; every call at or after it
is not served the cached token but performs exactly one new refresh; and a
refresh failure on any miss surfaces as the call's failure after exactly
one provider call, with the cache unchanged (the cache itself never
retries). -/
theorem getAccessToken_expiry (t0 : Int) (tok : Nat) (E : Nat) (hE : 300 < E) :
    getAccessToken (ε := ε) emptyTokenCache t0 (Except.ok (tok, some E)) =
      (Except.ok tok, { entry := some (tok, t0 + ((E : Int) - 300)) }, 1) ∧
    (∀ t (p : Except ε (Nat × Option Nat)), t < t0 + ((E : Int) - 300) →
      getAccessToken { entry := some (tok, t0 + ((E : Int) - 300)) } t p =
        (Except.ok tok, { entry := some (tok, t0 + ((E : Int) - 300)) }, 0)) ∧
    (∀ t (p : Except ε (Nat × Option Nat)), t0 + ((E : Int) - 300) ≤ t →
      (getAccessToken { entry := some (tok, t0 + ((E : Int) - 300)) } t p).2.2 = 1) ∧
    (∀ (c : TokenCache) (t : Int) (err : ε), cacheLookup c t = none →
      getAccessToken c t (Except.error err) = (Except.error err, c, 1)) := by
  have hEeff : effectiveExpiresIn (some E) = E := by
    simp [effectiveExpiresIn]
    omega
  refine ⟨?_, ?_, ?_, ?_⟩
  · simp [getAccessToken, cacheLookup, emptyTokenCache, hEeff]
  · intro t p ht
    simp [getAccessToken, cacheLookup, ht]
  · intro t p ht
    have hmiss : cacheLookup { entry := some (tok, t0 + ((E : Int) - 300)) } t = none := by
      simp [cacheLookup]
      omega
    cases p with
    | ok v => cases v with | mk tk ei => simp [getAccessToken, hmiss]
    | error err => simp [getAccessToken, hmiss]
  · intro c t err hmiss
    simp [getAccessToken, hmiss]

/-- Witness for C6: a refresh at time 0 with `expires_in = 3600` caches the
token until second 3300; a call at second 3299 is a cache hit with zero
refreshes, a call at second 3300 performs exactly one refresh, and a failed
refresh on an empty cache surfaces after exactly one provider call. -/
theorem getAccessToken_expiry_witness :
    getAccessToken (ε := Unit) emptyTokenCache 0 (Except.ok (1, some 3600)) =
      (Except.ok 1, { entry := some (1, 3300) }, 1) ∧
    getAccessToken (ε := Unit) { entry := some (1, 3300) } 3299
        (Except.ok (2, some 3600)) =
      (Except.ok 1, { entry := some (1, 3300) }, 0) ∧
    (getAccessToken (ε := Unit) { entry := some (1, 3300) } 3300
        (Except.ok (2, some 3600))).2.2 = 1 ∧
    getAccessToken (ε := Unit) emptyTokenCache 0 (Except.error ()) =
      (Except.error (), emptyTokenCache, 1) := by
  have h := getAccessToken_expiry (ε := Unit) 0 1 3600 (by norm_num)
  refine ⟨?_, ?_, ?_, ?_⟩
  · have h1 := h.1
    norm_num at h1 ⊢
    exact h1
  · have h2 := h.2.1 3299 (Except.ok (2, some 3600)) (by norm_num)
    norm_num at h2 ⊢
    exact h2
  · have h3 := h.2.2.1 3300 (Except.ok (2, some 3600)) (by norm_num)
    norm_num at h3 ⊢
    exact h3
  · exact h.2.2.2 emptyTokenCache 0 () rfl

/-! ## Two concurrent getAccessToken calls

`getAccessToken` has no single-flight guard: between the cache lookup
(line 102) and the cache store (line 128) the call suspends on the awaited
token request (line 120), so another call can observe the same miss. The
interleaving model gives each of two calls (A and B) two atomic steps:

* step at `pc = 0` — the cache lookup: a hit finishes the call with the
  cached token, a miss moves to `pc = 1`;
* step at `pc = 1` — the awaited refresh request plus the cache store:
  increments the process-wide refresh-request count, stores and returns
  the fresh token, finishes (`pc = 2`).

`tokens r` is the token minted by the (r+1)-th refresh request issued by
the provider. A schedule is the list of which call steps next (`true` = A).
Collapsing refresh+store into one atomic step only shrinks the set of
interleavings, so a herd exhibited here exists in the source as well. -/

structure TwoCallState where
  cache : Option Nat
  refreshCount : Nat
  pcA : Nat
  resA : Option Nat
  pcB : Nat
  resB : Option Nat
deriving Repr, DecidableEq

/-- One atomic step of a single `getAccessToken` call: takes the shared
cache and refresh count plus the call's program counter and result,
returns their new values. -/
def stepGet (tokens : Nat → Nat) (cache : Option Nat) (rc pc : Nat)
    (res : Option Nat) : Option Nat × Nat × Nat × Option Nat :=
  if pc = 0 then
    match cache with
    | some t => (cache, rc, 2, some t)
    | none => (cache, rc, 1, res)
  else if pc = 1 then
    (some (tokens rc), rc + 1, 2, some (tokens rc))
  else (cache, rc, pc, res)

/-- Scheduler step: advance call A (`true`) or call B (`false`). -/
def stepSys (tokens : Nat → Nat) (s : TwoCallState) (choice : Bool) : TwoCallState :=
  if choice then
    let r := stepGet tokens s.cache s.refreshCount s.pcA s.resA
    { cache := r.1, refreshCount := r.2.1, pcA := r.2.2.1, resA := r.2.2.2,
      pcB := s.pcB, resB := s.resB }
  else
    let r := stepGet tokens s.cache s.refreshCount s.pcB s.resB
    { cache := r.1, refreshCount := r.2.1, pcA := s.pcA, resA := s.resA,
      pcB := r.2.2.1, resB := r.2.2.2 }

def initialTwoCallState : TwoCallState :=
  { cache := none, refreshCount := 0, pcA := 0, resA := none, pcB := 0, resB := none }

/-- Run a schedule of interleaved steps of the two calls from the empty
cache. -/
def runSched (tokens : Nat → Nat) (sched : List Bool) : TwoCallState :=
  sched.foldl (stepSys tokens) initialTwoCallState

/-- Counterexample to C1: under the interleaving lookupA, lookupB,
refreshA, refreshB — both calls observe the miss before either refreshes —
the two concurrent `getAccessToken` calls issue two refresh requests, not
at most one, and receive different tokens rather than the result of a
single in-flight refresh. -/
theorem getAccessToken_not_single_flight :
    (runSched (fun r => 100 + r) [true, false, true, false]).refreshCount = 2 ∧
    (runSched (fun r => 100 + r) [true, false, true, false]).resA = some 100 ∧
    (runSched (fun r => 100 + r) [true, false, true, false]).resB = some 101 ∧
    (runSched (fun r => 100 + r) [true, false, true, false]).resA ≠
      (runSched (fun r => 100 + r) [true, false, true, false]).resB := by
  refine ⟨rfl, rfl, rfl, ?_⟩
  decide

/-- A call contributes a refresh only on its pc 1 → 2 transition. -/
def refreshWeight (pc : Nat) : Nat :=
  if pc = 2 then 1 else 0

def twoCallInv (s : TwoCallState) : Prop :=
  s.refreshCount ≤ refreshWeight s.pcA + refreshWeight s.pcB

theorem stepSys_inv (tokens : Nat → Nat) (s : TwoCallState) (choice : Bool)
    (h : twoCallInv s) : twoCallInv (stepSys tokens s choice) := by
  rcases s with ⟨cache, rc, pcA, resA, pcB, resB⟩
  simp only [twoCallInv, refreshWeight] at h
  cases choice <;> cases cache <;>
    simp only [twoCallInv, stepSys, stepGet, refreshWeight] <;>
    split_ifs at h ⊢ <;> simp_all <;> omega

theorem foldl_stepSys_inv (tokens : Nat → Nat) :
    ∀ (sched : List Bool) (s : TwoCallState), twoCallInv s →
      twoCallInv (sched.foldl (stepSys tokens) s) := by
  intro sched
  induction sched with
  | nil => intro s h; exact h
  | cons c rest ih =>
    intro s h
    exact ih (stepSys tokens s c) (stepSys_inv tokens s c h)

/-- C1 amended: two concurrent `getAccessToken` calls issue at most one
refresh request each — so at most two in total under every interleaving,
not at most one; the code performs no single-flight coalescing and each
refreshing caller receives the token of its own refresh. -/
theorem getAccessToken_refresh_bound (tokens : Nat → Nat) (sched : List Bool) :
    (runSched tokens sched).refreshCount ≤ 2 := by
  have hinv := foldl_stepSys_inv tokens sched initialTwoCallState
    (by simp [twoCallInv, initialTwoCallState, refreshWeight])
  have hA : refreshWeight (sched.foldl (stepSys tokens) initialTwoCallState).pcA ≤ 1 := by
    unfold refreshWeight
    split_ifs <;> omega
  have hB : refreshWeight (sched.foldl (stepSys tokens) initialTwoCallState).pcB ≤ 1 := by
    unfold refreshWeight
    split_ifs <;> omega
  unfold twoCallInv at hinv
  show (sched.foldl (stepSys tokens) initialTwoCallState).refreshCount ≤ 2
  omega

/-! ## Webhook ingestion

`POST /webhook/meeting-ended` (server.js lines 575-637) and
`validateWebhookSignature` (lines 412-426). A notification batch is
`req.body.value || []`; `none` models a body without a `value` field.
JavaScript truthiness matters for the extracted ids: both an absent field
and the empty string are falsy, so `a || b` and the
`!meetingId || !chatId || !userId` guard are modelled on optional strings
with `""` falsy. The call to `validateWebhookSignature` in the handler is
commented out in the source (lines 584-587), so the handler never reads
`clientState`. Queue admission (`meetingQueue.add`, line 610) is modelled
as an infallible append: jobs are queued, never executed, inside the
request, and the handler ends with a 202 `success: true` response. -/

structure ResourceData where
  id : Option String
  meetingId : Option String
  chatId : Option String
  threadId : Option String
  organizerId : Option String
  organizerUserId : Option String
deriving Repr, DecidableEq

structure MeetingNotification where
  resourceData : Option ResourceData
  clientState : Option String
deriving Repr, DecidableEq

/-- JavaScript truthiness of an optional string: `undefined` and `""` are
falsy. -/
def truthyStr : Option String → Bool
  | some s => decide (s ≠ "")
  | none => false

/-- JavaScript `a || b` on optional strings. -/
def jsOr (a b : Option String) : Option String :=
  if truthyStr a then a else b

/-- Field extraction of server.js lines 597-599:
`resourceData?.id || notification.resourceData?.meetingId`,
`resourceData?.chatId || notification.resourceData?.chatInfo?.threadId`,
`resourceData?.organizerId || notification.resourceData?.organizer?.id`
(`resourceData` is destructured from the notification, so both sides read
the same object). -/
def extractMeetingId (n : MeetingNotification) : Option String :=
  jsOr (n.resourceData.bind ResourceData.id) (n.resourceData.bind ResourceData.meetingId)

def extractChatId (n : MeetingNotification) : Option String :=
  jsOr (n.resourceData.bind ResourceData.chatId) (n.resourceData.bind ResourceData.threadId)

def extractUserId (n : MeetingNotification) : Option String :=
  jsOr (n.resourceData.bind ResourceData.organizerId)
    (n.resourceData.bind ResourceData.organizerUserId)

structure Job where
  meetingId : String
  chatId : String
  userId : String
deriving Repr, DecidableEq

/-- Lines 597-615: build the job payload for one notification, or skip it
(`continue`) when any of the three ids is missing or JS-falsy. -/
def extractJob (n : MeetingNotification) : Option Job :=
  if truthyStr (extractMeetingId n) && truthyStr (extractChatId n) &&
      truthyStr (extractUserId n) then
    some { meetingId := (extractMeetingId n).getD "",
           chatId := (extractChatId n).getD "",
           userId := (extractUserId n).getD "" }
  else none

structure WebhookResponse where
  status : Nat
  success : Bool
deriving Repr, DecidableEq

/-- The `for (const notification of notifications)` loop (lines 592-622):
enqueue the job of each notification whose three ids extract, in order. -/
def webhookLoop (queue : List Job) : List MeetingNotification → List Job
  | [] => queue
  | n :: rest =>
    match extractJob n with
    | some j => webhookLoop (queue ++ [j]) rest
    | none => webhookLoop queue rest

/-- The whole POST handler: iterate `req.body.value || []` enqueueing
valid notifications, then acknowledge with `202 { success: true }`
(lines 624-628). No job is executed here and nothing else is touched. -/
def handleWebhook (queue : List Job) (body : Option (List MeetingNotification)) :
    List Job × WebhookResponse :=
  (webhookLoop queue (body.getD []), { status := 202, success := true })

/-- `validateWebhookSignature` (server.js lines 412-426): compares
`req.body.value?.[0]?.clientState` against the configured secret. Defined
by the source but never called on the request path. -/
def validateWebhookSignature (body : Option (List MeetingNotification))
    (secret : String) : Bool :=
  ((body.getD []).head?.bind MeetingNotification.clientState) == some secret

theorem webhookLoop_eq (l : List MeetingNotification) :
    ∀ queue, webhookLoop queue l = queue ++ l.filterMap extractJob := by
  induction l with
  | nil => intro queue; simp [webhookLoop]
  | cons n rest ih =>
    intro queue
    cases hn : extractJob n with
    | some j => simp [webhookLoop, hn, ih]
    | none => simp [webhookLoop, hn, ih]

theorem length_filterMap_extractJob (l : List MeetingNotification) :
    (l.filterMap extractJob).length = l.countP (fun n => (extractJob n).isSome) := by
  induction l with
  | nil => rfl
  | cons n rest ih =>
    cases hn : extractJob n with
    | some j => simp [List.filterMap_cons, List.countP_cons, hn, ih]
    | none => simp [List.filterMap_cons, List.countP_cons, hn, ih]

/-- C7: for every inbound batch, the POST handler appends to the queue
exactly the jobs of the notifications whose meetingId, chatId and userId
all extract — one job per such notification, in order, so the queue grows
by their count — and responds 202 `success: true` unconditionally: the
response does not depend on any processing outcome, and the handler's only
effect is the enqueue itself (no job body runs inside the request). -/
theorem webhook_enqueues_valid (queue : List Job)
    (body : Option (List MeetingNotification)) :
    (handleWebhook queue body).1 = queue ++ (body.getD []).filterMap extractJob ∧
    (handleWebhook queue body).1.length =
      queue.length + (body.getD []).countP (fun n => (extractJob n).isSome) ∧
    (handleWebhook queue body).2 = { status := 202, success := true } := by
  refine ⟨?_, ?_, rfl⟩
  · exact webhookLoop_eq (body.getD []) queue
  · show (webhookLoop queue (body.getD [])).length = _
    rw [webhookLoop_eq (body.getD []) queue]
    simp [length_filterMap_extractJob]

/-- Replace a notification's clientState, leaving everything else alone. -/
def setClientState (cs : Option String) (n : MeetingNotification) :
    MeetingNotification :=
  { n with clientState := cs }

theorem extractJob_setClientState (cs : Option String) (n : MeetingNotification) :
    extractJob (setClientState cs n) = extractJob n := rfl

/-- C8: two webhook requests that differ only in the clientState carried by
their notifications produce identical handler behavior — the same enqueued
jobs and the same response — even when the first batch would pass
`validateWebhookSignature` and the second would fail it: the check exists
but the request path never consults it. -/
theorem webhook_ignores_clientState (queue : List Job)
    (body : List MeetingNotification) (cs cs2 : Option String) (secret : String) :
    handleWebhook queue (some (body.map (setClientState cs))) =
      handleWebhook queue (some (body.map (setClientState cs2))) ∧
    (body ≠ [] → cs = some secret → cs2 ≠ some secret →
      validateWebhookSignature (some (body.map (setClientState cs))) secret = true ∧
      validateWebhookSignature (some (body.map (setClientState cs2))) secret = false) := by
  constructor
  · have h1 := webhookLoop_eq (body.map (setClientState cs)) queue
    have h2 := webhookLoop_eq (body.map (setClientState cs2)) queue
    simp only [handleWebhook, Option.getD]
    rw [h1, h2, List.filterMap_map, List.filterMap_map]
    have hcomp : ∀ csx : Option String,
        (extractJob ∘ setClientState csx) = extractJob := by
      intro csx
      funext n
      exact extractJob_setClientState csx n
    rw [hcomp cs, hcomp cs2]
  · intro hne h1 h2
    cases body with
    | nil => exact absurd rfl hne
    | cons n rest =>
      constructor
      · simp [validateWebhookSignature, setClientState, h1]
      · simp [validateWebhookSignature, setClientState]
        exact h2

/-- Sample resource data for the C8 witness: all three ids extractable. -/
def sampleResourceData : ResourceData :=
  { id := some "m1", meetingId := none, chatId := some "c1", threadId := none,
    organizerId := some "u1", organizerUserId := none }

/-- Sample notification for the C8 witness. -/
def sampleNotification : MeetingNotification :=
  { resourceData := some sampleResourceData, clientState := none }

/-- Witness for C8: a batch of one well-formed notification, once with the
correct secret "s" and once with no clientState at all: both runs enqueue
the same single job and answer 202, while the signature check accepts the
first and rejects the second. -/
theorem webhook_ignores_clientState_witness :
    handleWebhook []
        (some ([sampleNotification].map (setClientState (some "s")))) =
      handleWebhook []
        (some ([sampleNotification].map (setClientState none))) ∧
    validateWebhookSignature
        (some ([sampleNotification].map (setClientState (some "s")))) "s" = true ∧
    validateWebhookSignature
        (some ([sampleNotification].map (setClientState none))) "s" = false := by
  have h := webhook_ignores_clientState [] [sampleNotification] (some "s") none "s"
  have hsig := h.2 (by simp) rfl (by simp)
  exact ⟨h.1, hsig.1, hsig.2⟩

end MeetingMinutes
